import Mathlib

/-!
# Verification of the faster-whisper-server streaming pipeline

Shallow embedding of `src/faster_whisper_server/main.py`: the model cache
(`load_model`), the model-name validator (`handle_default_openai_model`),
the websocket receive activity (`audio_receiver`), and the streaming
session controller (`transcribe_stream`).  Components that live in modules
outside the provided source tree (`AudioStream` from `audio.py`, the sample
rate from `config.py`, the response models from `server_models.py`) are
modelled from the specification and marked as such in their doc comments.

Durations and sample values are embedded as rationals (`ℚ`); sample indices
as naturals.  External collaborators (the VAD function, the inference
engine, the transcriber) are parameters of the definitions that call them.
-/

namespace FWS

/-- Server configuration fields used by the embedded code
(`config.max_models`, `config.max_no_data_seconds`,
`config.inactivity_window_seconds`, `config.max_inactivity_seconds`,
`config.whisper.model`). -/
structure Config where
  max_models : ℕ
  max_no_data_seconds : ℚ
  inactivity_window_seconds : ℚ
  max_inactivity_seconds : ℚ
  whisper_model : String
deriving Repr, DecidableEq

/-! ## Model cache (`load_model`, main.py lines 48-73)

`loaded_models` is a Python `OrderedDict`; we embed it as an association
list in insertion order (head = oldest inserted).  `next(iter(d))` is the
head key, `del d[oldest]` drops it, and a fresh insertion appends at the
tail.  `d[name]` on a resident key returns the value without reordering.
Constructing `WhisperModel` can raise for an invalid name; we embed the
constructor as a parameter `loadFn : String → Option M` (`none` = raise). -/

/-- One step of `load_model`: given the current cache, return the updated
cache and the handle, or `none` when the `WhisperModel` constructor raises
(invalid model name).  Mirrors main.py lines 51-73.  On the raising path
the already-performed eviction is not reported, since no property here
observes the cache after a failed load. -/
def load_model {M : Type} (loadFn : String → Option M) (max_models : ℕ)
    (cache : List (String × M)) (model_name : String) :
    Option (List (String × M) × M) :=
  match cache.lookup model_name with
  | some m => some (cache, m)
  | none =>
    let cache1 := if max_models ≤ cache.length then cache.tail else cache
    match loadFn model_name with
    | none => none
    | some whisper => some (cache1 ++ [(model_name, whisper)], whisper)

/-- Iterate `load_model` over a list of requested names, starting from a
given cache, ignoring the returned handles.  A failed load aborts. -/
def load_model_run {M : Type} (loadFn : String → Option M) (max_models : ℕ)
    (cache : List (String × M)) : List String → Option (List (String × M))
  | [] => some cache
  | n :: ns =>
    match load_model loadFn max_models cache n with
    | none => none
    | some (cache1, _) => load_model_run loadFn max_models cache1 ns

/-! ## Model-name validator (`handle_default_openai_model`, lines 171-183)

`ModelName = Annotated[str, AfterValidator(handle_default_openai_model)]`
is the parameter type of the `model` argument of all three endpoints that
accept a model name (`translate_file`, `transcribe_file`,
`transcribe_stream`), so the validator runs on the supplied name before
any load. -/

/-- Embedding of `handle_default_openai_model` (main.py lines 171-180). -/
def handle_default_openai_model (cfg : Config) (model_name : String) : String :=
  if model_name = "whisper-1" then cfg.whisper_model else model_name

/-- Model name seen by `load_model` inside `translate_file`
(main.py line 203: the `model` form field has type `ModelName`). -/
def translate_file_model (cfg : Config) (model : String) : String :=
  handle_default_openai_model cfg model

/-- Model name seen by `load_model` inside `transcribe_file`
(main.py line 244: the `model` form field has type `ModelName`). -/
def transcribe_file_model (cfg : Config) (model : String) : String :=
  handle_default_openai_model cfg model

/-- Model name seen by `load_model` inside `transcribe_stream`
(main.py line 321: the `model` query parameter has type `ModelName`). -/
def transcribe_stream_model (cfg : Config) (model : String) : String :=
  handle_default_openai_model cfg model

/-! ## AudioStream

The class `AudioStream` lives in `faster_whisper_server/audio.py`, which is
not part of the provided source tree; it is modelled from spec §3 and §4.1.
Samples are rationals at a fixed rate `R` samples/second (`R` stands for
`SAMPLES_PER_SECOND` from `config.py`, also absent, so it is a parameter).
The field `closeCalls` instruments the model: it counts invocations of
`close` so that the exactly-once cleanup property can be stated. -/

/-- Modelled from the spec: the AudioBuffer of §3 — `samples` (here `data`),
the monotonic `closed` flag, plus an instrumentation counter `closeCalls`
recording how many times `close` was invoked. -/
structure AudioStream where
  data : List ℚ
  closed : Bool
  closeCalls : ℕ
deriving Repr, DecidableEq

/-- Modelled from the spec: `duration = len(samples) / R` (§3). -/
def AudioStream.duration (R : ℕ) (s : AudioStream) : ℚ :=
  (s.data.length : ℚ) / (R : ℚ)

/-- Modelled from the spec: `append`/`extend` adds samples at the end
(§4.1); the receive activity only calls it while the stream is open. -/
def AudioStream.extend (s : AudioStream) (samples : List ℚ) : AudioStream :=
  { s with data := s.data ++ samples }

/-- Modelled from the spec: `after(t)` returns the suffix of samples whose
index corresponds to time ≥ `t` (§4.1); sample `i` sits at time `i / R`, so
the first kept index is `⌈t * R⌉`, clamped to `0` for negative `t`. -/
def AudioStream.after (R : ℕ) (s : AudioStream) (t : ℚ) : List ℚ :=
  s.data.drop (Int.toNat ⌈t * (R : ℚ)⌉)

/-- Modelled from the spec: `close()` sets the monotonic `closed` flag
(§4.1); the instrumentation counter is incremented on every call. -/
def AudioStream.close (s : AudioStream) : AudioStream :=
  { s with closed := true, closeCalls := s.closeCalls + 1 }

/-- The fresh stream created at session start (main.py line 323). -/
def AudioStream.empty : AudioStream := ⟨[], false, 0⟩

/-! ## Receive activity (`audio_receiver`, main.py lines 263-301)

Each loop iteration awaits the next inbound chunk under
`asyncio.wait_for(..., timeout=config.max_no_data_seconds)`.  We embed one
iteration as a step on an `InboundEvent`: what the awaited receive produced.
`get_speech_timestamps` is an external collaborator, embedded as a
parameter `vad` returning speech intervals in sample indices. -/

/-- A speech interval as returned by `get_speech_timestamps`: start/end in
sample indices within the analysed window. -/
structure SpeechInterval where
  start_sample : ℕ
  end_sample : ℕ
deriving Repr, DecidableEq

/-- Outcome of one awaited receive inside `audio_receiver`. -/
inductive InboundEvent
  | chunk (samples : List ℚ)  -- bytes arrived and decoded into samples
  | timeout                   -- asyncio.TimeoutError raised by wait_for
  | disconnect                -- WebSocketDisconnect raised by receive_bytes
  | recvError                 -- any other exception (e.g. decode failure)
  | cancelled                 -- the surrounding TaskGroup cancelled the task
deriving Repr, DecidableEq

/-- Why `audio_receiver` stopped looping. -/
inductive ExitReason
  | silenceTimeout   -- zero speech intervals in the trailing window (line 280)
  | notEnoughSpeech  -- trailing silence ≥ max_inactivity_seconds (line 285)
  | noData           -- asyncio.TimeoutError caught at line 295
  | clientDisconnect -- WebSocketDisconnect caught at line 299
  | errored          -- an uncaught exception propagates out of the coroutine
  | wasCancelled     -- CancelledError propagates out of the coroutine
deriving Repr, DecidableEq

/-- Whether the exit reason reaches the unconditional
`audio_stream.close()` at main.py line 301: the two `break` paths and the
two caught exceptions do; an uncaught exception or a cancellation skips it. -/
def receiver_closes : ExitReason → Bool
  | .silenceTimeout => true
  | .notEnoughSpeech => true
  | .noData => true
  | .clientDisconnect => true
  | .errored => false
  | .wasCancelled => false

/-- Log levels used by the embedded code. -/
inductive LogLevel
  | debug | info | error
deriving Repr, DecidableEq

/-- The level at which `audio_receiver` itself logs the exit: all four
expected terminations are logged with `logger.info` (main.py lines 281,
291, 296, 300); a propagating exception or cancellation is not logged by
the receiver. -/
def receiver_exit_log : ExitReason → Option LogLevel
  | .silenceTimeout => some .info
  | .notEnoughSpeech => some .info
  | .noData => some .info
  | .clientDisconnect => some .info
  | .errored => none
  | .wasCancelled => none

/-- Whether the exit reason corresponds to an exception propagating out of
`audio_receiver` (neither `asyncio.TimeoutError` nor `WebSocketDisconnect`
is re-raised; anything else escapes the try block). -/
def receiver_propagates : ExitReason → Bool
  | .errored => true
  | .wasCancelled => true
  | _ => false

/-- The bound passed to `asyncio.wait_for` around `ws.receive_bytes()`
(main.py lines 266-268): a `timeout` event occurs exactly when no chunk
arrived within this many seconds. -/
def receive_wait_timeout (cfg : Config) : ℚ := cfg.max_no_data_seconds

/-- Result of one iteration of the receive loop: either the loop continues
with the updated stream, or it exits with a reason.  The `Option (List ℚ)`
component records the window handed to `get_speech_timestamps` during this
iteration, if the detector was invoked. -/
inductive ReceiverStep
  | running (s : AudioStream) (vadCall : Option (List ℚ))
  | exited (s : AudioStream) (r : ExitReason) (vadCall : Option (List ℚ))
deriving Repr, DecidableEq

/-- One iteration of the `while True` loop of `audio_receiver`
(main.py lines 265-301), given what the awaited receive produced.
On a chunk: extend the stream; if `duration - inactivity_window_seconds
≥ 0`, run the detector on `after(duration - inactivity_window_seconds)`;
zero intervals or trailing silence ≥ `max_inactivity_seconds` break the
loop (and the fall-through closes the stream); otherwise keep looping.
Timeout and disconnect are caught and fall through to the close;
any other exception (and cancellation) leaves the stream unclosed. -/
def receiver_step (cfg : Config) (R : ℕ) (vad : List ℚ → List SpeechInterval)
    (s : AudioStream) : InboundEvent → ReceiverStep
  | .chunk samples =>
    let s1 := s.extend samples
    if 0 ≤ s1.duration R - cfg.inactivity_window_seconds then
      let window := s1.after R (s1.duration R - cfg.inactivity_window_seconds)
      let timestamps := vad window
      if timestamps.length = 0 then
        .exited s1.close .silenceTimeout (some window)
      else if cfg.max_inactivity_seconds ≤
          cfg.inactivity_window_seconds -
            ((timestamps.getLast?.getD ⟨0, 0⟩).end_sample : ℚ) / (R : ℚ) then
        .exited s1.close .notEnoughSpeech (some window)
      else
        .running s1 (some window)
    else
      .running s1 none
  | .timeout => .exited s.close .noData none
  | .disconnect => .exited s.close .clientDisconnect none
  | .recvError => .exited s .errored none
  | .cancelled => .exited s .wasCancelled none

/-- Run the receive loop over a finite trace of inbound events,
accumulating the detector invocations.  Returns the final stream, the list
of windows handed to the detector, and the exit reason (`none` if the
trace ended while the loop was still waiting for the next event). -/
def receiver_run (cfg : Config) (R : ℕ) (vad : List ℚ → List SpeechInterval)
    (s : AudioStream) (acc : List (List ℚ)) :
    List InboundEvent → AudioStream × List (List ℚ) × Option ExitReason
  | [] => (s, acc, none)
  | e :: es =>
    match receiver_step cfg R vad s e with
    | .running s1 c => receiver_run cfg R vad s1 (acc ++ c.toList) es
    | .exited s1 r c => (s1, acc ++ c.toList, some r)

/-! ## Transcribe-and-emit activity (main.py lines 327-345)

The driver `audio_transcriber` (external module) yields transcription
updates; for each one the loop first checks `ws.client_state` and breaks
if it is `DISCONNECTED`, otherwise sends exactly one outbound message
shaped by `response_format`.  We embed an update as an abstract type `T`
with a text projection and two serialisers (the `from_transcription(...)
.model_dump()` conversions of `server_models.py`, absent from the source
tree, stay abstract), and the state observed at each iteration as part of
the input trace. -/

/-- Connection state as exposed by `ws.client_state`. -/
inductive WsState
  | connected | disconnected
deriving Repr, DecidableEq

/-- The negotiated `response_format` query parameter
(`text` | `json` | `verbose_json`, spec §6). -/
inductive ResponseFormat
  | text | json | verbose_json
deriving Repr, DecidableEq

/-- An outbound websocket message: `ws.send_text` or `ws.send_json`. -/
inductive OutboundMessage (J : Type)
  | sendText (s : String)
  | sendJson (j : J)
deriving Repr, DecidableEq

/-- The single message sent for one transcription update
(main.py lines 332-345): `send_text(transcription.text)` for `text`,
`send_json(TranscriptionJsonResponse.from_transcription(t).model_dump())`
for `json`, and the verbose variant for `verbose_json`. -/
def emit_one {T J : Type} (fmt : ResponseFormat) (textOf : T → String)
    (jsonOf verboseOf : T → J) (tr : T) : OutboundMessage J :=
  match fmt with
  | .text => .sendText (textOf tr)
  | .json => .sendJson (jsonOf tr)
  | .verbose_json => .sendJson (verboseOf tr)

/-- The emit loop over the driver's update sequence, paired with the
`ws.client_state` observed when each update is about to be sent
(main.py lines 327-345): a `DISCONNECTED` state breaks out of the loop
before sending; otherwise exactly one message per update is sent.
The function is total: the break path raises nothing. -/
def emit_loop {T J : Type} (fmt : ResponseFormat) (textOf : T → String)
    (jsonOf verboseOf : T → J) :
    List (T × WsState) → List (OutboundMessage J)
  | [] => []
  | (tr, st) :: rest =>
    if st = WsState.disconnected then []
    else emit_one fmt textOf jsonOf verboseOf tr ::
      emit_loop fmt textOf jsonOf verboseOf rest

/-! ## Session teardown (`transcribe_stream`, main.py lines 351-359)

The `finally` block closes the stream only if it is not already closed,
then attempts the close handshake (`ws.close(code=1000)`) only if
`ws.client_state != DISCONNECTED`; an exception from `ws.close` is caught
by the inner `except`, logged at error level, and not re-raised. -/

/-- Whether the awaited `ws.close(code=1000)` raises. -/
inductive HandshakeEvent
  | ok | raises
deriving Repr, DecidableEq

/-- Outcome of the `finally` block: the final stream, whether the close
handshake was attempted, whether a handshake failure was logged at error
level, and whether any exception escaped the block. -/
structure TeardownResult where
  stream : AudioStream
  handshakeAttempted : Bool
  handshakeErrorLogged : Bool
  raised : Bool
deriving Repr, DecidableEq

/-- The `finally` block of `transcribe_stream` (main.py lines 351-359):
guarded close of the stream, then the guarded best-effort close handshake
whose failures are caught and logged. -/
def session_teardown (s : AudioStream) (st : WsState) (hs : HandshakeEvent) :
    TeardownResult :=
  let s1 := if s.closed then s else s.close
  if st = WsState.disconnected then
    ⟨s1, false, false, false⟩
  else
    match hs with
    | .ok => ⟨s1, true, false, false⟩
    | .raises => ⟨s1, true, true, false⟩

/-! ## The streaming session (`transcribe_stream`, main.py lines 304-359)

After `ws.accept()`, the handler resolves the model through `load_model`
(line 321) — an exception here propagates before the stream is created and
before either activity starts, rejecting the session.  Otherwise the
TaskGroup runs the receive activity and the emit loop; once the receiver
has exited, teardown runs.  A trace that leaves the receiver still waiting
means the session is still in its `Streaming` state. -/

/-- Observable outcome of one call to the streaming endpoint. -/
inductive SessionOutcome (J : Type)
  | rejected      -- load_model raised at accept time; no activity started
  | streaming     -- the event trace ended with the receive loop still live
  | closed (td : TeardownResult) (messages : List (OutboundMessage J))
      (vadCalls : List (List ℚ))
deriving Repr, DecidableEq

/-- Embedding of `transcribe_stream` (main.py lines 304-359) over a finite
trace: resolve the model name through the `ModelName` validator and
`load_model`; on failure the session is rejected with no receiver steps and
no outbound messages.  Otherwise run the receive activity over `events`
and the emit loop over `updates`, then the `finally` teardown with the
client state at teardown time and the handshake outcome. -/
def transcribe_stream_run {M J T : Type} (loadFn : String → Option M)
    (cfg : Config) (R : ℕ) (vad : List ℚ → List SpeechInterval)
    (cache : List (String × M)) (model : String)
    (fmt : ResponseFormat) (textOf : T → String) (jsonOf verboseOf : T → J)
    (events : List InboundEvent) (updates : List (T × WsState))
    (finalWs : WsState) (hs : HandshakeEvent) : SessionOutcome J :=
  match load_model loadFn cfg.max_models cache (transcribe_stream_model cfg model) with
  | none => .rejected
  | some _ =>
    match receiver_run cfg R vad AudioStream.empty [] events with
    | (_, _, none) => .streaming
    | (s, calls, some _) =>
      .closed (session_teardown s finalWs hs)
        (emit_loop fmt textOf jsonOf verboseOf updates) calls

/-- Projection: the window handed to the detector in one receive-loop
iteration, if any. -/
def ReceiverStep.vadCall : ReceiverStep → Option (List ℚ)
  | .running _ c => c
  | .exited _ _ c => c

/-- The trailing inactivity window analysed after a chunk is appended:
`audio_stream.after(audio_stream.duration - config.inactivity_window_seconds)`
(main.py lines 273-275). -/
def trailing_window (cfg : Config) (R : ℕ) (s : AudioStream) : List ℚ :=
  s.after R (s.duration R - cfg.inactivity_window_seconds)

/-- The trailing silence of the decision rule, computed from the detector
output on the window:
`config.inactivity_window_seconds - timestamps[-1]["end"] / SAMPLES_PER_SECOND`
(main.py lines 287-288). -/
def trailing_silence (cfg : Config) (R : ℕ)
    (timestamps : List SpeechInterval) : ℚ :=
  cfg.inactivity_window_seconds -
    ((timestamps.getLast?.getD ⟨0, 0⟩).end_sample : ℚ) / (R : ℚ)

/-! ## Theorems -/

/-- C10: every endpoint that accepts a model name (batch translation,
batch transcription, and the streaming endpoint) silently replaces
"whisper-1" by the configured default model before any load, and every
other model name passes through the validator unchanged. -/
theorem default_openai_model_replacement (cfg : Config) (name : String) :
    translate_file_model cfg name
        = (if name = "whisper-1" then cfg.whisper_model else name)
    ∧ transcribe_file_model cfg name
        = (if name = "whisper-1" then cfg.whisper_model else name)
    ∧ transcribe_stream_model cfg name
        = (if name = "whisper-1" then cfg.whisper_model else name) :=
  ⟨rfl, rfl, rfl⟩

/-- C8: during session teardown the graceful close handshake is attempted
iff the connection is not already disconnected; an exception raised while
performing it is logged and swallowed, and nothing ever escapes the
teardown block. -/
theorem close_handshake_guarded (s : AudioStream) (st : WsState)
    (hs : HandshakeEvent) :
    ((session_teardown s st hs).handshakeAttempted = true ↔ st ≠ .disconnected)
    ∧ (session_teardown s st hs).raised = false
    ∧ ((session_teardown s st hs).handshakeErrorLogged = true
        ↔ (st ≠ .disconnected ∧ hs = .raises)) := by
  cases st <;> cases hs <;> simp [session_teardown]

/-- C5: in every iteration of the receive activity the wait for the next
chunk is bounded by `max_no_data_seconds`; when that bound expires
(`timeout` event), the receive loop stops at once — consuming no further
events — with the no-data reason, logged at info level and not propagated
as an error, and the audio stream is closed. -/
theorem no_data_timeout_expected (cfg : Config) (R : ℕ)
    (vad : List ℚ → List SpeechInterval) (s : AudioStream)
    (acc : List (List ℚ)) (rest : List InboundEvent) :
    receiver_run cfg R vad s acc (.timeout :: rest) = (s.close, acc, some .noData)
    ∧ (s.close).closed = true
    ∧ receiver_exit_log .noData = some .info
    ∧ receiver_propagates .noData = false
    ∧ receive_wait_timeout cfg = cfg.max_no_data_seconds := by
  refine ⟨?_, rfl, rfl, rfl, rfl⟩
  simp [receiver_run, receiver_step, AudioStream.close]

/-- C6: the emit loop sends exactly one outbound message, shaped by the
negotiated response format, for each update it reaches, and stops emitting
(without error — the function is total) at the first update for which the
connection is already observed disconnected: the messages are exactly the
per-update messages of the longest disconnect-free prefix. -/
theorem emit_disconnect_stops_else_one_message {T J : Type}
    (fmt : ResponseFormat) (textOf : T → String) (jsonOf verboseOf : T → J)
    (updates : List (T × WsState)) :
    emit_loop fmt textOf jsonOf verboseOf updates
      = (updates.takeWhile (fun p => !(p.2 == WsState.disconnected))).map
          (fun p => emit_one fmt textOf jsonOf verboseOf p.1)
    ∧ (∀ tr : T,
        emit_one ResponseFormat.text textOf jsonOf verboseOf tr
            = .sendText (textOf tr)
        ∧ emit_one ResponseFormat.json textOf jsonOf verboseOf tr
            = .sendJson (jsonOf tr)
        ∧ emit_one ResponseFormat.verbose_json textOf jsonOf verboseOf tr
            = .sendJson (verboseOf tr)) := by
  refine ⟨?_, fun tr => ⟨rfl, rfl, rfl⟩⟩
  induction updates with
  | nil => rfl
  | cons p rest ih =>
    obtain ⟨tr, st⟩ := p
    cases st with
    | disconnected => rfl
    | connected =>
      have hstep : emit_loop fmt textOf jsonOf verboseOf
          ((tr, WsState.connected) :: rest)
          = emit_one fmt textOf jsonOf verboseOf tr ::
            emit_loop fmt textOf jsonOf verboseOf rest := rfl
      rw [hstep, ih]
      rfl

/-- C9: a model-load failure surfaces as a rejection of the streaming
session at accept time, before the receive and emit activities start (the
outcome is `rejected` regardless of the inbound events and updates, with
no detector calls and no outbound messages recorded), and conversely a
session whose load succeeded is never rejected mid-stream. -/
theorem model_load_rejects_at_accept {M J T : Type} (loadFn : String → Option M)
    (cfg : Config) (R : ℕ) (vad : List ℚ → List SpeechInterval)
    (cache : List (String × M)) (model : String)
    (fmt : ResponseFormat) (textOf : T → String) (jsonOf verboseOf : T → J)
    (events : List InboundEvent) (updates : List (T × WsState))
    (finalWs : WsState) (hs : HandshakeEvent) :
    transcribe_stream_run loadFn cfg R vad cache model fmt textOf jsonOf
        verboseOf events updates finalWs hs = SessionOutcome.rejected
    ↔ load_model loadFn cfg.max_models cache (transcribe_stream_model cfg model)
        = none := by
  unfold transcribe_stream_run
  cases h : load_model loadFn cfg.max_models cache (transcribe_stream_model cfg model) with
  | none => simp
  | some c =>
    obtain ⟨s, calls, o⟩ := receiver_run cfg R vad AudioStream.empty [] events
    cases o <;> simp

/-- C2: when the detector, evaluated on the trailing inactivity window,
returns zero speech intervals, the receive activity terminates the session
at once: the loop exits with the silence-timeout reason, consumes no
further events, and the audio stream is closed. -/
theorem silence_timeout_terminates (cfg : Config) (R : ℕ)
    (vad : List ℚ → List SpeechInterval) (s : AudioStream) (samples : List ℚ)
    (acc : List (List ℚ)) (rest : List InboundEvent)
    (hW : 0 ≤ (s.extend samples).duration R - cfg.inactivity_window_seconds)
    (hvad : vad (trailing_window cfg R (s.extend samples)) = []) :
    receiver_run cfg R vad s acc (.chunk samples :: rest)
      = ((s.extend samples).close,
         acc ++ [trailing_window cfg R (s.extend samples)],
         some .silenceTimeout)
    ∧ ((s.extend samples).close).closed = true := by
  refine ⟨?_, rfl⟩
  simp only [receiver_run, receiver_step, trailing_window] at *
  simp [hW, hvad]

/-- C2 witness: three seconds of silence at one sample per second, with a
window of three seconds, terminate the session with the stream closed. -/
theorem silence_timeout_terminates_witness :
    receiver_run ⟨2, 5, 3, 1, "m"⟩ 1 (fun _ => []) AudioStream.empty []
        [InboundEvent.chunk [0, 0, 0]]
      = ((AudioStream.empty.extend [0, 0, 0]).close,
         [] ++ [trailing_window ⟨2, 5, 3, 1, "m"⟩ 1
           (AudioStream.empty.extend [0, 0, 0])],
         some ExitReason.silenceTimeout)
    ∧ ((AudioStream.empty.extend [0, 0, 0]).close).closed = true :=
  silence_timeout_terminates ⟨2, 5, 3, 1, "m"⟩ 1 (fun _ => [])
    AudioStream.empty [0, 0, 0] [] []
    (by simp [AudioStream.duration, AudioStream.extend, AudioStream.empty]) rfl

/-- C3: when the detector finds at least one speech interval in the
trailing window, the receive activity closes the session iff
`trailing_silence = W - last_end/R` is at least `max_inactivity_seconds`;
with strictly smaller trailing silence the loop keeps running with the
extended stream. -/
theorem trailing_silence_decides (cfg : Config) (R : ℕ)
    (vad : List ℚ → List SpeechInterval) (s : AudioStream) (samples : List ℚ)
    (hW : 0 ≤ (s.extend samples).duration R - cfg.inactivity_window_seconds)
    (hne : vad (trailing_window cfg R (s.extend samples)) ≠ []) :
    (cfg.max_inactivity_seconds ≤
        trailing_silence cfg R (vad (trailing_window cfg R (s.extend samples))) →
      receiver_step cfg R vad s (.chunk samples)
        = .exited (s.extend samples).close .notEnoughSpeech
            (some (trailing_window cfg R (s.extend samples)))
      ∧ ((s.extend samples).close).closed = true)
    ∧ (trailing_silence cfg R (vad (trailing_window cfg R (s.extend samples)))
        < cfg.max_inactivity_seconds →
      receiver_step cfg R vad s (.chunk samples)
        = .running (s.extend samples)
            (some (trailing_window cfg R (s.extend samples)))) := by
  constructor
  · intro hsil
    refine ⟨?_, rfl⟩
    simp only [receiver_step, trailing_window, trailing_silence] at *
    simp [hW, hsil, List.length_eq_zero, hne]
  · intro hsil
    simp only [receiver_step, trailing_window, trailing_silence] at *
    simp [hW, not_le.mpr hsil, List.length_eq_zero, hne]

/-- C3 witness: with `W = 3`, `max_inactivity_seconds = 1`, `R = 1` and a
single speech interval ending at sample 1, trailing silence is `2 ≥ 1`, so
the step exits with the not-enough-speech reason and a closed stream. -/
theorem trailing_silence_decides_witness :
    receiver_step ⟨2, 5, 3, 1, "m"⟩ 1 (fun _ => [⟨0, 1⟩]) AudioStream.empty
        (.chunk [0, 0, 0])
      = .exited (AudioStream.empty.extend [0, 0, 0]).close .notEnoughSpeech
          (some (trailing_window ⟨2, 5, 3, 1, "m"⟩ 1
            (AudioStream.empty.extend [0, 0, 0]))) :=
  ((trailing_silence_decides ⟨2, 5, 3, 1, "m"⟩ 1 (fun _ => [⟨0, 1⟩])
    AudioStream.empty [0, 0, 0]
    (by simp [AudioStream.duration, AudioStream.extend, AudioStream.empty])
    (by simp)).1
    (by simp [trailing_silence]; norm_num)).1

/-- Characterisation of `AudioStream.after`: it returns the suffix
dropping exactly the samples whose time `i / R` is strictly below the
requested timestamp. -/
theorem after_eq_drop (R : ℕ) (hR : 0 < R) (s : AudioStream) (t : ℚ) :
    ∃ k, s.after R t = s.data.drop k
      ∧ ∀ i : ℕ, k ≤ i ↔ t ≤ (i : ℚ) / (R : ℚ) := by
  refine ⟨Int.toNat ⌈t * (R : ℚ)⌉, rfl, fun i => ?_⟩
  have hR' : (0 : ℚ) < (R : ℚ) := by exact_mod_cast hR
  rw [Int.toNat_le, le_div_iff₀ hR']
  have : ((i : ℤ) : ℚ) = (i : ℚ) := by push_cast; rfl
  rw [Int.ceil_le, this]

/-- The detector argument of one receive-loop iteration on a chunk: the
trailing window when the duration check passes, nothing otherwise. -/
theorem receiver_step_chunk_vadCall (cfg : Config) (R : ℕ)
    (vad : List ℚ → List SpeechInterval) (s : AudioStream)
    (samples : List ℚ) :
    (receiver_step cfg R vad s (.chunk samples)).vadCall
      = if 0 ≤ (s.extend samples).duration R - cfg.inactivity_window_seconds
        then some (trailing_window cfg R (s.extend samples))
        else none := by
  simp only [receiver_step, trailing_window]
  by_cases hW : 0 ≤ (s.extend samples).duration R - cfg.inactivity_window_seconds
  · rw [if_pos hW, if_pos hW]
    split
    · rfl
    · split
      · rfl
      · rfl
  · rw [if_neg hW, if_neg hW]
    rfl

/-- C4: for every received chunk the detector is invoked iff the
accumulated duration has reached `inactivity_window_seconds`, and when
invoked its input is exactly the trailing window: the suffix of the sample
sequence keeping precisely the samples whose time is at least
`duration - inactivity_window_seconds`; it is a proper suffix of the
buffer (never the full buffer) whenever the duration exceeds the window
length by at least one sample period. -/
theorem detector_trailing_window (cfg : Config) (R : ℕ) (hR : 0 < R)
    (vad : List ℚ → List SpeechInterval) (s : AudioStream)
    (samples : List ℚ) :
    ((receiver_step cfg R vad s (.chunk samples)).vadCall.isSome = true
      ↔ cfg.inactivity_window_seconds ≤ (s.extend samples).duration R)
    ∧ ∀ w, (receiver_step cfg R vad s (.chunk samples)).vadCall = some w →
        w = trailing_window cfg R (s.extend samples)
        ∧ (∃ k, w = (s.extend samples).data.drop k
            ∧ ∀ i : ℕ, k ≤ i ↔
                (s.extend samples).duration R - cfg.inactivity_window_seconds
                  ≤ (i : ℚ) / (R : ℚ))
        ∧ (0 ≤ cfg.inactivity_window_seconds →
           1 / (R : ℚ) ≤ (s.extend samples).duration R
               - cfg.inactivity_window_seconds →
           w.length < (s.extend samples).data.length) := by
  have hR' : (0 : ℚ) < (R : ℚ) := by exact_mod_cast hR
  constructor
  · rw [receiver_step_chunk_vadCall]
    by_cases hW : 0 ≤ (s.extend samples).duration R - cfg.inactivity_window_seconds
    · rw [if_pos hW]
      simp [sub_nonneg.mp hW]
    · rw [if_neg hW]
      simp only [Option.isSome_none, Bool.false_eq_true, false_iff]
      exact fun h => hW (sub_nonneg.mpr h)
  · intro w hw
    rw [receiver_step_chunk_vadCall] at hw
    by_cases hW : 0 ≤ (s.extend samples).duration R - cfg.inactivity_window_seconds
    · rw [if_pos hW] at hw
      obtain rfl : trailing_window cfg R (s.extend samples) = w := Option.some.inj hw
      refine ⟨rfl, ?_, ?_⟩
      · obtain ⟨k, hk, hchar⟩ := after_eq_drop R hR (s.extend samples)
          ((s.extend samples).duration R - cfg.inactivity_window_seconds)
        exact ⟨k, hk, hchar⟩
      · intro hW0 hless
        obtain ⟨k, hk, hchar⟩ := after_eq_drop R hR (s.extend samples)
          ((s.extend samples).duration R - cfg.inactivity_window_seconds)
        have hRinv : (0 : ℚ) < 1 / (R : ℚ) := by positivity
        have hk1 : 1 ≤ k := by
          by_contra hcon
          have hk0 : k = 0 := by omega
          have h0 := (hchar 0).mp (by omega)
          rw [Nat.cast_zero, zero_div] at h0
          linarith
        have hlen1 : 1 ≤ (s.extend samples).data.length := by
          have hd : 1 / (R : ℚ) ≤ (s.extend samples).duration R := by linarith
          have h1 : (1 : ℚ) ≤ ((s.extend samples).data.length : ℚ) := by
            rw [AudioStream.duration] at hd
            calc (1 : ℚ) = 1 / (R : ℚ) * R := by field_simp
            _ ≤ ((s.extend samples).data.length : ℚ) / (R : ℚ) * R := by
                exact mul_le_mul_of_nonneg_right hd (le_of_lt hR')
            _ = ((s.extend samples).data.length : ℚ) := by field_simp
          exact_mod_cast h1
        show (trailing_window cfg R (s.extend samples)).length
          < (s.extend samples).data.length
        rw [trailing_window, hk, List.length_drop]
        omega
    · rw [if_neg hW] at hw
      exact absurd hw (by simp)

/-- C4 witness: four seconds of audio at one sample per second with a
three-second window invoke the detector on the three-sample trailing
window, a proper suffix of the four-sample buffer. -/
theorem detector_trailing_window_witness :
    (trailing_window ⟨2, 5, 3, 1, "m"⟩ 1
        (AudioStream.empty.extend [0, 0, 0, 0])).length
      < (AudioStream.empty.extend [0, 0, 0, 0]).data.length :=
  ((detector_trailing_window ⟨2, 5, 3, 1, "m"⟩ 1 (by norm_num) (fun _ => [])
      AudioStream.empty [0, 0, 0, 0]).2
    (trailing_window ⟨2, 5, 3, 1, "m"⟩ 1 (AudioStream.empty.extend [0, 0, 0, 0]))
    (by
      have hW : (0 : ℚ) ≤ (AudioStream.empty.extend [0, 0, 0, 0]).duration 1
          - (Config.mk 2 5 3 1 "m").inactivity_window_seconds := by
        norm_num [AudioStream.duration, AudioStream.extend, AudioStream.empty]
      rw [receiver_step_chunk_vadCall, if_pos hW])).2.2
    (by norm_num)
    (by norm_num [AudioStream.duration, AudioStream.extend, AudioStream.empty])

/-- Association-list lookup distributes over append. -/
theorem lookup_append {M : Type} (l1 l2 : List (String × M)) (a : String) :
    List.lookup a (l1 ++ l2)
      = ((List.lookup a l1).orElse fun _ => List.lookup a l2) := by
  induction l1 with
  | nil => rfl
  | cons p l ih =>
    obtain ⟨k, v⟩ := p
    simp only [List.cons_append, List.lookup]
    cases a == k
    · simpa using ih
    · rfl

/-- Looking up a key absent from the key list of a keyed map gives
nothing. -/
theorem lookup_map_self_eq_none {M : Type} (g : String → M) (ys : List String)
    (y : String) (hy : y ∉ ys) :
    List.lookup y (ys.map fun n => (n, g n)) = none := by
  induction ys with
  | nil => rfl
  | cons n ns ih =>
    have hne : (y == n) = false :=
      beq_eq_false_iff_ne.mpr fun h => hy (h ▸ List.mem_cons_self n ns)
    simp only [List.map_cons, List.lookup, hne]
    exact ih fun hm => hy (List.mem_cons_of_mem _ hm)

/-- Filling phase of the cache: loading fresh distinct names while below
capacity appends them in insertion order and evicts nothing. -/
theorem load_model_run_fill {M : Type} (g : String → M) (N : ℕ) :
    ∀ (names : List String) (cache : List (String × M)),
    names.Nodup → (∀ n ∈ names, cache.lookup n = none) →
    cache.length + names.length ≤ N →
    load_model_run (fun n => some (g n)) N cache names
      = some (cache ++ names.map fun n => (n, g n)) := by
  intro names
  induction names with
  | nil => intro cache _ _ _; simp [load_model_run]
  | cons n ns ih =>
    intro cache hnd hlk hlen
    have hn : cache.lookup n = none := hlk n (List.mem_cons_self n ns)
    have hcap : ¬ N ≤ cache.length := by
      simp only [List.length_cons] at hlen; omega
    have hrec := ih (cache ++ [(n, g n)]) (List.Nodup.of_cons hnd)
      (fun m hm => by
        rw [lookup_append, hlk m (List.mem_cons_of_mem _ hm)]
        have hne : (m == n) = false := beq_eq_false_iff_ne.mpr
          fun h => (List.nodup_cons.mp hnd).1 (h ▸ hm)
        simp [List.lookup, hne])
      (by simp only [List.length_append, List.length_singleton, List.length_nil,
            List.length_cons] at hlen ⊢; omega)
    simp only [load_model_run, load_model, hn, if_neg hcap, hrec]
    simp

/-- Running the cache over concatenated request lists sequences the runs. -/
theorem load_model_run_append {M : Type} (loadFn : String → Option M) (N : ℕ) :
    ∀ (l1 l2 : List String) (cache : List (String × M)),
    load_model_run loadFn N cache (l1 ++ l2)
      = (load_model_run loadFn N cache l1).bind
          fun c => load_model_run loadFn N c l2 := by
  intro l1
  induction l1 with
  | nil => intro l2 cache; rfl
  | cons n ns ih =>
    intro l2 cache
    simp only [List.cons_append, load_model_run]
    cases hl : load_model loadFn N cache n with
    | none => rfl
    | some p =>
      obtain ⟨c1, m⟩ := p
      exact ih l2 c1

/-- C7: requesting a resident model returns the existing handle with the
cache unchanged — no load is attempted (the loader below is arbitrary,
even always-failing) and no entry moves; loading `N + 1` distinct
identifiers into an empty cache of capacity `N ≥ 1` evicts exactly one
entry, the one inserted longest ago, leaving the last `N` names in
insertion order; and a re-request of a resident entry does not refresh its
position: at capacity, a subsequent fresh load still evicts the head
entry (insertion-order FIFO, not LRU). -/
theorem model_cache_fifo_eviction {M : Type} (loadFn : String → Option M)
    (g : String → M) (N : ℕ) (hN : 1 ≤ N)
    (cache : List (String × M)) (name : String) (m : M)
    (hres : cache.lookup name = some m)
    (names : List String) (hlen : names.length = N + 1) (hnd : names.Nodup) :
    load_model loadFn N cache name = some (cache, m)
    ∧ load_model_run (fun n => some (g n)) N [] names
        = some ((names.drop 1).map fun n => (n, g n))
    ∧ ∀ fresh, cache.lookup fresh = none → cache.length = N →
        load_model_run (fun n => some (g n)) N cache [name, fresh]
          = some (cache.tail ++ [(fresh, g fresh)]) := by
  refine ⟨by simp [load_model, hres], ?_, ?_⟩
  · have hne : names ≠ [] := by
      intro h
      rw [h] at hlen
      simp at hlen
    obtain ⟨ys, y, hys, hysl⟩ :
        ∃ ys y, names = ys ++ [y] ∧ ys.length = N := by
      refine ⟨names.dropLast, names.getLast hne,
        (List.dropLast_append_getLast hne).symm, ?_⟩
      rw [List.length_dropLast, hlen]
      rfl
    subst hys
    have hysnd : ys.Nodup := (List.nodup_append.mp hnd).1
    have hyny : y ∉ ys := by
      have hdisj := (List.nodup_append.mp hnd).2.2
      intro hmem
      exact hdisj hmem (List.mem_singleton_self y)
    rw [load_model_run_append, load_model_run_fill g N ys [] hysnd
      (fun n _ => rfl) (by simp [hysl]), List.nil_append, Option.some_bind']
    have hlook : List.lookup y (ys.map fun n => (n, g n)) = none :=
      lookup_map_self_eq_none g ys y hyny
    have hcap : N ≤ (ys.map fun n => (n, g n)).length := by
      simp [hysl]
    simp only [load_model_run, load_model, hlook, if_pos hcap]
    have htail : (ys.map fun n => (n, g n)).tail
        = (ys.drop 1).map fun n => (n, g n) := by
      rw [← List.drop_one, ← List.map_drop]
    have hdrop : (ys ++ [y]).drop 1 = ys.drop 1 ++ [y] :=
      List.drop_append_of_le_length (by omega)
    rw [htail, hdrop]
    simp
  · intro fresh hfresh hcap
    simp only [load_model_run, load_model, hres, hfresh,
      if_pos (le_of_eq hcap.symm)]

/-- C7 witness: a capacity-2 cache holding `a` then `b`; requesting the
resident `a` (with a loader that would fail) returns the old handle and
changes nothing; loading three distinct names from empty keeps the last
two; and after re-requesting `a`, loading fresh `c` still evicts `a`. -/
theorem model_cache_fifo_eviction_witness :
    load_model (fun _ => (none : Option String)) 2 [("a", "A"), ("b", "B")] "a"
        = some ([("a", "A"), ("b", "B")], "A")
    ∧ load_model_run (fun n => some n) 2 [] ["x", "y", "z"]
        = some [("y", "y"), ("z", "z")]
    ∧ load_model_run (fun n => some n) 2 [("a", "A"), ("b", "B")] ["a", "c"]
        = some [("b", "B"), ("c", "c")] := by
  have h := model_cache_fifo_eviction (fun _ => (none : Option String))
    (fun n => n) 2 (by norm_num) [("a", "A"), ("b", "B")] "a" "A" rfl
    ["x", "y", "z"] rfl (by decide)
  exact ⟨h.1, h.2.1, h.2.2 "c" rfl rfl⟩

/-- Close accounting for the receive activity: starting from an open,
never-closed stream, the loop leaves the stream untouched while running,
and on exit has called `close` exactly once on the fall-through paths
(detector verdicts, no-data timeout, disconnect) and zero times on the
propagating paths (error, cancellation). -/
theorem receiver_run_close_accounting (cfg : Config) (R : ℕ)
    (vad : List ℚ → List SpeechInterval) :
    ∀ (events : List InboundEvent) (s : AudioStream) (acc : List (List ℚ)),
    s.closed = false → s.closeCalls = 0 →
    ((receiver_run cfg R vad s acc events).1.closed
        = (match (receiver_run cfg R vad s acc events).2.2 with
           | none => false
           | some r => receiver_closes r)
     ∧ (receiver_run cfg R vad s acc events).1.closeCalls
        = (match (receiver_run cfg R vad s acc events).2.2 with
           | none => 0
           | some r => if receiver_closes r then 1 else 0)) := by
  intro events
  induction events with
  | nil =>
    intro s acc h1 h2
    exact ⟨h1, h2⟩
  | cons e es ih =>
    intro s acc h1 h2
    cases e with
    | chunk samples =>
      simp only [receiver_run, receiver_step]
      by_cases hW : 0 ≤ (s.extend samples).duration R
          - cfg.inactivity_window_seconds
      · rw [if_pos hW]
        by_cases h0 : (vad ((s.extend samples).after R
            ((s.extend samples).duration R
              - cfg.inactivity_window_seconds))).length = 0
        · rw [if_pos h0]
          refine ⟨rfl, ?_⟩
          simp [AudioStream.close, AudioStream.extend, receiver_closes, h2]
        · rw [if_neg h0]
          by_cases hsil : cfg.max_inactivity_seconds ≤
              cfg.inactivity_window_seconds -
                (((vad ((s.extend samples).after R
                    ((s.extend samples).duration R
                      - cfg.inactivity_window_seconds))).getLast?.getD
                  ⟨0, 0⟩).end_sample : ℚ) / (R : ℚ)
          · rw [if_pos hsil]
            refine ⟨rfl, ?_⟩
            simp [AudioStream.close, AudioStream.extend, receiver_closes, h2]
          · rw [if_neg hsil]
            exact ih (s.extend samples) _ h1 h2
      · rw [if_neg hW]
        exact ih (s.extend samples) _ h1 h2
    | timeout =>
      constructor <;>
        simp [receiver_run, receiver_step, AudioStream.close,
          receiver_closes, h1, h2]
    | disconnect =>
      constructor <;>
        simp [receiver_run, receiver_step, AudioStream.close,
          receiver_closes, h1, h2]
    | recvError =>
      constructor <;>
        simp [receiver_run, receiver_step, receiver_closes, h1, h2]
    | cancelled =>
      constructor <;>
        simp [receiver_run, receiver_step, receiver_closes, h1, h2]

/-- The stream returned by the teardown block is the guarded close of its
input, whatever the handshake does. -/
theorem session_teardown_stream (s : AudioStream) (st : WsState)
    (hs : HandshakeEvent) :
    (session_teardown s st hs).stream = if s.closed then s else s.close := by
  cases st <;> cases hs <;> rfl

/-- C1: every streaming session that reaches teardown ends with the audio
stream closed and with `close` called exactly once, on every termination
path: the receive activity closes it on its caught exit paths (idle
verdicts, no-data timeout, disconnect), and the guarded final cleanup
closes it exactly on the remaining paths (error or cancellation), never a
second time. -/
theorem stream_closed_exactly_once {M J T : Type} (loadFn : String → Option M)
    (cfg : Config) (R : ℕ) (vad : List ℚ → List SpeechInterval)
    (cache : List (String × M)) (model : String)
    (fmt : ResponseFormat) (textOf : T → String) (jsonOf verboseOf : T → J)
    (events : List InboundEvent) (updates : List (T × WsState))
    (finalWs : WsState) (hs : HandshakeEvent)
    (td : TeardownResult) (msgs : List (OutboundMessage J))
    (calls : List (List ℚ))
    (h : transcribe_stream_run loadFn cfg R vad cache model fmt textOf jsonOf
        verboseOf events updates finalWs hs
      = SessionOutcome.closed td msgs calls) :
    td.stream.closeCalls = 1 ∧ td.stream.closed = true := by
  unfold transcribe_stream_run at h
  cases hl : load_model loadFn cfg.max_models cache
      (transcribe_stream_model cfg model) with
  | none =>
    rw [hl] at h
    simp at h
  | some c =>
    rw [hl] at h
    rcases hrec : receiver_run cfg R vad AudioStream.empty [] events with
      ⟨s, calls2, o⟩
    rw [hrec] at h
    cases o with
    | none => simp at h
    | some r =>
      simp only [SessionOutcome.closed.injEq] at h
      obtain ⟨htd, hmsgs, hcalls⟩ := h
      subst htd
      have hacc := receiver_run_close_accounting cfg R vad events
        AudioStream.empty [] rfl rfl
      rw [hrec] at hacc
      dsimp only at hacc
      obtain ⟨hc, hn⟩ := hacc
      rw [session_teardown_stream]
      cases hcr : receiver_closes r with
      | true =>
        rw [hcr] at hc hn
        rw [if_pos hc]
        simp at hn
        exact ⟨hn, hc⟩
      | false =>
        rw [hcr] at hc hn
        rw [if_neg (by simp [hc])]
        simp at hn
        exact ⟨by simp [AudioStream.close, hn], rfl⟩

/-- C1 witness: a session whose client sends no bytes times out after the
no-data bound and tears down with the stream closed exactly once. -/
theorem stream_closed_exactly_once_witness :
    (session_teardown AudioStream.empty.close WsState.disconnected
        HandshakeEvent.ok).stream.closeCalls = 1
    ∧ (session_teardown AudioStream.empty.close WsState.disconnected
        HandshakeEvent.ok).stream.closed = true :=
  stream_closed_exactly_once (fun _ => some 0) ⟨2, 5, 3, 1, "m"⟩ 1
    (fun _ => []) [] "m" .text (fun t : String => t) (fun t => t) (fun t => t)
    [.timeout] [] .disconnected .ok
    (session_teardown AudioStream.empty.close WsState.disconnected
      HandshakeEvent.ok)
    [] [] rfl

end FWS
